import Mathlib

set_option maxRecDepth 16384

/-
Verification development for the Elyvium deploy tool (src/deploy_ui.py).

The Python module is embedded shallowly:

* Filesystem queries (os.path.isdir / os.path.isfile), the wall clock
  (datetime.now rendering) and subprocess execution (subprocess.run) are
  abstracted into a `World` record; `exec` maps an argv list and a working
  directory to (returncode, stdout, stderr).  The terminal `print` calls of
  the source affect nothing the caller observes and are not modelled.
* Every function that may spawn processes additionally returns the ordered
  list of invocations it performed (the "command-execution spy" of the
  spec), threaded explicitly.
* `raise HTTPException(...)` becomes `Except.error` on an `HTTPException`
  record; FastAPI surfaces `detail` to the caller unchanged.
* os.path.abspath / os.path.normpath / os.path.join are modelled after
  CPython's posixpath implementations, operating on `List Char` so that the
  splitting used by `normpath` matches Python's `str.split('/')` exactly.
* shlex.split is modelled after CPython's shlex in POSIX mode with
  whitespace_split (the configuration `shlex.split` uses): whitespace
  separation, single quotes literal, double quotes with backslash escaping
  only `"` and `\`, backslash escaping any character outside quotes.  On a
  lexing error (unterminated quote / dangling escape) CPython raises
  ValueError; the model instead closes the current token.  The program only
  ever tokenizes the two fixed registry command strings, which contain no
  quote or escape characters, so the divergence is unreachable from the
  modelled entry points.
-/

structure Invocation where
  cmd : List String
  cwd : String
deriving DecidableEq

structure HTTPException where
  status_code : Nat
  detail : String
deriving DecidableEq

/-- EnvConfig record of deploy_ui.py (frozen dataclass). -/
structure EnvConfig where
  key : String
  name : String
  default_work_front_dir : String
  default_work_back_dir : String
  default_branch : String
  front_deploy_script : Option String
  backend_compose_command : String
deriving DecidableEq

structure DeployRequest where
  env_key : String
  work_front_dir : String
  work_back_dir : String
  branch : String
deriving DecidableEq

/-- Shape of the JSON object returned by a successful POST /api/deploy. -/
structure DeployResponse where
  ok : Bool
  env : String
  output : String
deriving DecidableEq

/-- Ambient effects of the Python process: clock rendering, filesystem
queries, and subprocess execution (returncode, stdout, stderr). -/
structure World where
  ts : String
  isdir : String → Bool
  isfile : String → Bool
  exec : List String → String → Int × String × String

/-- Python str.startswith on explicit character lists (first argument is
the candidate prefix). -/
def isPrefixOfData : List Char → List Char → Bool
  | [], _ => true
  | _ :: _, [] => false
  | p :: ps, c :: cs => p = c && isPrefixOfData ps cs

/-- Python str.split(sep) for a one-character separator: no collapsing of
adjacent separators, empty pieces kept, empty input yields one empty piece. -/
def splitOnChar (sep : Char) : List Char → List (List Char)
  | [] => [[]]
  | c :: rest =>
    if c = sep then [] :: splitOnChar sep rest
    else
      match splitOnChar sep rest with
      | [] => [[c]]
      | h :: t => (c :: h) :: t

/-- Loop body of CPython posixpath.normpath: skip empty and "." components,
resolve ".." against the accumulated components where permitted. -/
def normStep (initialSlashes : Nat) (acc : List (List Char)) (comp : List Char) :
    List (List Char) :=
  if comp = [] ∨ comp = ['.'] then acc
  else if comp ≠ ['.', '.'] ∨ (initialSlashes = 0 ∧ acc = []) ∨
          (acc ≠ [] ∧ acc.getLast? = some ['.', '.']) then
    acc ++ [comp]
  else if acc ≠ [] then acc.dropLast
  else acc

/-- CPython posixpath.normpath on the character list of a path. -/
def normpathData (l : List Char) : List Char :=
  if l = [] then ['.']
  else
    let initialSlashes : Nat :=
      if isPrefixOfData ['/'] l then
        if isPrefixOfData ['/', '/'] l ∧ ¬ isPrefixOfData ['/', '/', '/'] l then 2 else 1
      else 0
    let newComps := (splitOnChar '/' l).foldl (normStep initialSlashes) []
    let p := List.replicate initialSlashes '/' ++ List.intercalate ['/'] newComps
    if p = [] then ['.'] else p

def isabs (p : String) : Bool := isPrefixOfData ['/'] p.data

/-- CPython posixpath.join restricted to two arguments, as used by the
source (os.path.join(dir, script) and os.path.join(path, ".git")). -/
def posixJoin (a b : String) : String :=
  if isabs b then b
  else if a.data = [] ∨ a.data.getLast? = some '/' then a ++ b
  else a ++ "/" ++ b

/-- CPython posixpath.abspath: join a relative path onto the process cwd,
then normalize.  The process cwd is passed explicitly. -/
def abspath (cwd p : String) : String :=
  if isabs p then String.mk (normpathData p.data)
  else String.mk (normpathData (posixJoin cwd p).data)

def ALLOWED_ROOTS : List String := ["/home/elyvium/projects/ecosystem/"]

/-- Guard of deploy_ui.py: abspath(path).startswith(root) for some allowed
root. -/
def _is_under_allowed_roots (cwd path : String) : Bool :=
  ALLOWED_ROOTS.any (fun root => isPrefixOfData root.data (abspath cwd path).data)

inductive ShlexMode where
  | normal : ShlexMode
  | insingle : ShlexMode
  | indouble : ShlexMode
deriving DecidableEq

def flushTok : Option (List Char) → List (List Char)
  | none => []
  | some t => [t]

/-- State machine of CPython shlex (POSIX mode, whitespace_split), over the
remaining characters; `tok` is the token in progress (`some []` after an
empty quoted string, `none` between tokens). -/
def shlexAux : ShlexMode → Option (List Char) → List Char → List (List Char)
  | _, tok, [] => flushTok tok
  | ShlexMode.normal, tok, c :: rest =>
    if c = ' ' ∨ c = '\t' ∨ c = '\r' ∨ c = '\n' then
      match tok with
      | none => shlexAux ShlexMode.normal none rest
      | some t => t :: shlexAux ShlexMode.normal none rest
    else if c = '\'' then shlexAux ShlexMode.insingle (some (tok.getD [])) rest
    else if c = '"' then shlexAux ShlexMode.indouble (some (tok.getD [])) rest
    else if c = '\\' then
      match rest with
      | [] => flushTok tok
      | d :: rest2 => shlexAux ShlexMode.normal (some (tok.getD [] ++ [d])) rest2
    else shlexAux ShlexMode.normal (some (tok.getD [] ++ [c])) rest
  | ShlexMode.insingle, tok, c :: rest =>
    if c = '\'' then shlexAux ShlexMode.normal (some (tok.getD [])) rest
    else shlexAux ShlexMode.insingle (some (tok.getD [] ++ [c])) rest
  | ShlexMode.indouble, tok, c :: rest =>
    if c = '"' then shlexAux ShlexMode.normal (some (tok.getD [])) rest
    else if c = '\\' then
      match rest with
      | [] => flushTok tok
      | d :: rest2 =>
        if d = '"' ∨ d = '\\' then shlexAux ShlexMode.indouble (some (tok.getD [] ++ [d])) rest2
        else shlexAux ShlexMode.indouble (some (tok.getD [] ++ ['\\', d])) rest2
    else shlexAux ShlexMode.indouble (some (tok.getD [] ++ [c])) rest

/-- shlex.split of the source (posix, whitespace_split). -/
def shlex_split (s : String) : List String :=
  (shlexAux ShlexMode.normal none s.data).map String.mk

def TEST_env : EnvConfig :=
  { key := "TEST"
    name := "TEST"
    default_work_front_dir := "/home/elyvium/projects/ecosystem/elyvium-ecosystem-frontend"
    default_work_back_dir := "/home/elyvium/projects/ecosystem/elyvium-ecosystem"
    default_branch := "sprint/23"
    front_deploy_script := some ("./deploy.sh")
    backend_compose_command := "docker compose -p elyvium-test --env-file .env.test up --build -d" }

def DEV_env : EnvConfig :=
  { key := "DEV"
    name := "DEV"
    default_work_front_dir := "/home/elyvium/projects/ecosystem/elyvium-ecosystem-frontend"
    default_work_back_dir := "/home/elyvium/projects/ecosystem/elyvium-ecosystem"
    default_branch := "sprint/23"
    front_deploy_script := none
    backend_compose_command := "docker compose --env-file .env.dev up --build -d" }

def ENVS : List EnvConfig := [TEST_env, DEV_env]

/-- Dict access ENVS_BY_KEY.get(key); the registry keys are pairwise
distinct, so first-match lookup agrees with the Python dict comprehension
(in which a later duplicate key would win). -/
def ENVS_BY_KEY (k : String) : Option EnvConfig :=
  ENVS.find? (fun e => e.key == k)

/-- Python truthiness of the Optional[str] field front_deploy_script:
None and the empty string are falsy. -/
def optTruthy : Option String → Bool
  | none => false
  | some s => !(s == "")

def bannerLine : String := String.mk (List.replicate 100 '█')

def _banner (ts title : String) : String :=
  "\n" ++ bannerLine ++ "\n█ " ++ ts ++ " | " ++ title ++ "\n" ++ bannerLine ++ "\n"

def boxTop : String :=
  "┏━━━━━━━━━━━━━━━━━━━━━━━━━━━━━━━━━━━━━━━━━━━━━━━━━━━━━━━━━━━━━━━━━━━━━━━━━━━━━━━━━━━━━━━━━━━━┓\n"

def boxTitle : String :=
  "┃ COMMAND                                                                                    ┃\n"

def boxMid : String :=
  "┣━━━━━━━━━━━━━━━━━━━━━━━━━━━━━━━━━━━━━━━━━━━━━━━━━━━━━━━━━━━━━━━━━━━━━━━━━━━━━━━━━━━━━━━━━━━━┫\n"

def boxBot : String :=
  "┗━━━━━━━━━━━━━━━━━━━━━━━━━━━━━━━━━━━━━━━━━━━━━━━━━━━━━━━━━━━━━━━━━━━━━━━━━━━━━━━━━━━━━━━━━━━━┛\n"

def _cmd_block (cmd : List String) (cwd : String) : String :=
  "\n" ++ boxTop ++ boxTitle ++ boxMid ++
  "┃ CWD : " ++ cwd ++ "\n" ++
  "┃ CMD : " ++ String.intercalate (" ") cmd ++ "\n" ++
  boxBot

/-- Detail string of the HTTPException raised on a non-zero exit. -/
def commandFailedDetail (ts : String) (cmd : List String) (cwd : String)
    (rc : Int) (out : String) : String :=
  _banner ts ("COMMAND FAILED ❌") ++ _cmd_block cmd cwd ++
  "Exit Code: " ++ toString rc ++ "\n\n" ++ out

/-- _run_cmd_capture of deploy_ui.py: run the command, return combined
stdout+stderr, raise a 500 HTTPException on non-zero exit.  The second
component records the single invocation performed. -/
def _run_cmd_capture (w : World) (cmd : List String) (cwd : String) :
    Except HTTPException String × List Invocation :=
  let rc := (w.exec cmd cwd).1
  let out := (w.exec cmd cwd).2.1 ++ (w.exec cmd cwd).2.2
  (if rc ≠ 0 then
     Except.error { status_code := 500, detail := commandFailedDetail w.ts cmd cwd rc out }
   else Except.ok out,
   [{ cmd := cmd, cwd := cwd }])

def _assert_git_repo (w : World) (path : String) : Except HTTPException Unit :=
  if ¬ w.isdir path then
    Except.error { status_code := 400, detail := "Directory not found: " ++ path }
  else if ¬ w.isdir (posixJoin path (".git")) then
    Except.error { status_code := 400, detail := "Not a git repo (.git not found): " ++ path }
  else Except.ok ()

def _assert_file_exists (w : World) (path : String) : Except HTTPException Unit :=
  if ¬ w.isfile path then
    Except.error { status_code := 400, detail := "File not found: " ++ path }
  else Except.ok ()

def frontendSkipLine : String := "[Frontend] Skipped (not configured for this environment)\n"

def _deploy_frontend (w : World) (env : EnvConfig) (work_front_dir branch : String) :
    Except HTTPException String × List Invocation :=
  let log0 := _banner w.ts ("FRONTEND DEPLOY | " ++ env.name)
  if ¬ optTruthy env.front_deploy_script then
    (Except.ok (log0 ++ frontendSkipLine), [])
  else
    match _assert_git_repo w work_front_dir with
    | Except.error e => (Except.error e, [])
    | Except.ok _ =>
      let script_path := posixJoin work_front_dir (env.front_deploy_script.getD (""))
      match _assert_file_exists w script_path with
      | Except.error e => (Except.error e, [])
      | Except.ok _ =>
        let log1 := log0 ++
          "Frontend Directory : " ++ work_front_dir ++ "\n" ++
          "Deploy Script      : " ++ script_path ++ "\n" ++
          "Branch             : " ++ branch ++ "\n"
        let cmd := ["bash", script_path, branch]
        let log2 := log1 ++ _cmd_block cmd work_front_dir
        match _run_cmd_capture w cmd work_front_dir with
        | (Except.error e, t) => (Except.error e, t)
        | (Except.ok out, t) => (Except.ok (log2 ++ out ++ "\n[Frontend] Done ✅\n"), t)

def fetchCmd : List String := ["git", "fetch", "origin"]

def pullCmd (branch : String) : List String := ["git", "pull", "origin", branch]

def _deploy_backend (w : World) (env : EnvConfig) (work_back_dir branch : String) :
    Except HTTPException String × List Invocation :=
  let log0 := _banner w.ts ("BACKEND DEPLOY | " ++ env.name)
  match _assert_git_repo w work_back_dir with
  | Except.error e => (Except.error e, [])
  | Except.ok _ =>
    let log1 := log0 ++
      "Backend Directory  : " ++ work_back_dir ++ "\n" ++
      "Branch             : " ++ branch ++ "\n" ++
      "Docker Compose     : " ++ env.backend_compose_command ++ "\n"
    let log2 := log1 ++ _cmd_block fetchCmd work_back_dir
    match _run_cmd_capture w fetchCmd work_back_dir with
    | (Except.error e, t1) => (Except.error e, t1)
    | (Except.ok o1, t1) =>
      let log3 := log2 ++ o1 ++ _cmd_block (pullCmd branch) work_back_dir
      match _run_cmd_capture w (pullCmd branch) work_back_dir with
      | (Except.error e, t2) => (Except.error e, t1 ++ t2)
      | (Except.ok o2, t2) =>
        let compose_args := shlex_split env.backend_compose_command
        let log4 := log3 ++ o2 ++ _cmd_block compose_args work_back_dir
        match _run_cmd_capture w compose_args work_back_dir with
        | (Except.error e, t3) => (Except.error e, t1 ++ t2 ++ t3)
        | (Except.ok o3, t3) =>
          (Except.ok (log4 ++ o3 ++ "\n[Backend] Done ✅\n"), t1 ++ t2 ++ t3)

/-- Entry of GET /api/envs for one environment. -/
structure EnvListEntry where
  env_key : String
  name : String
  default_work_front_dir : String
  default_work_back_dir : String
  default_branch : String
  has_frontend : Bool
deriving DecidableEq

def envListEntry (e : EnvConfig) : EnvListEntry :=
  { env_key := e.key
    name := e.name
    default_work_front_dir := e.default_work_front_dir
    default_work_back_dir := e.default_work_back_dir
    default_branch := e.default_branch
    has_frontend := optTruthy e.front_deploy_script }

/-- GET /api/envs. -/
def list_envs : List EnvListEntry := ENVS.map envListEntry

def squote : String := String.mk [Char.ofNat 39]

/-- Python repr of a list of strings (none of the allowed roots contains a
quote character), as interpolated into the path-rejection detail. -/
def pyListRepr (xs : List String) : String :=
  "[" ++ String.intercalate (", ") (xs.map (fun s => squote ++ s ++ squote)) ++ "]"

def pathNotAllowedDetail (p : String) : String :=
  "Path not allowed: " ++ p ++ "\nAllowed roots: " ++ pyListRepr ALLOWED_ROOTS

def deployHeader (w : World) (env : EnvConfig) (req : DeployRequest) : String :=
  _banner w.ts ("DEPLOY STARTED | " ++ env.name) ++
  "work_front_dir: " ++ req.work_front_dir ++ "\n" ++
  "work_back_dir : " ++ req.work_back_dir ++ "\n" ++
  "branch        : " ++ req.branch ++ "\n"

/-- POST /api/deploy handler of deploy_ui.py. -/
def deploy (w : World) (cwd : String) (req : DeployRequest) :
    Except HTTPException DeployResponse × List Invocation :=
  match ENVS_BY_KEY req.env_key with
  | none => (Except.error { status_code := 400, detail := "Invalid env_key (not in allowlist)." }, [])
  | some env =>
    if ¬ _is_under_allowed_roots cwd req.work_front_dir then
      (Except.error { status_code := 400, detail := pathNotAllowedDetail req.work_front_dir }, [])
    else if ¬ _is_under_allowed_roots cwd req.work_back_dir then
      (Except.error { status_code := 400, detail := pathNotAllowedDetail req.work_back_dir }, [])
    else
      match _deploy_frontend w env req.work_front_dir req.branch with
      | (Except.error e, tf) => (Except.error e, tf)
      | (Except.ok front_log, tf) =>
        match _deploy_backend w env req.work_back_dir req.branch with
        | (Except.error e, tb) => (Except.error e, tf ++ tb)
        | (Except.ok back_log, tb) =>
          (Except.ok { ok := true, env := env.name,
                       output := deployHeader w env req ++ front_log ++ back_log ++
                                 _banner w.ts ("DEPLOY FINISHED ✅ | " ++ env.name) },
           tf ++ tb)

lemma run_cmd_capture_trace (w : World) (cmd : List String) (cwd : String) :
    (_run_cmd_capture w cmd cwd).2 = [{ cmd := cmd, cwd := cwd }] := rfl

lemma run_cmd_capture_ok (w : World) (cmd : List String) (cwd : String)
    (h : (w.exec cmd cwd).1 = 0) :
    _run_cmd_capture w cmd cwd =
      (Except.ok ((w.exec cmd cwd).2.1 ++ (w.exec cmd cwd).2.2),
       [{ cmd := cmd, cwd := cwd }]) := by
  unfold _run_cmd_capture
  simp [h]

lemma run_cmd_capture_fail (w : World) (cmd : List String) (cwd : String)
    (h : (w.exec cmd cwd).1 ≠ 0) :
    _run_cmd_capture w cmd cwd =
      (Except.error ⟨500, commandFailedDetail w.ts cmd cwd (w.exec cmd cwd).1
           ((w.exec cmd cwd).2.1 ++ (w.exec cmd cwd).2.2)⟩,
       [{ cmd := cmd, cwd := cwd }]) := by
  unfold _run_cmd_capture
  simp [h]

/-- C9: every entry of the environment listing, looked up by its key in the
registry, yields a configuration whose display name and frontend flag match
the listed values, and the listing is in registry insertion order. -/
theorem c9_list_lookup_roundtrip :
    (∀ entry, entry ∈ list_envs →
      (ENVS_BY_KEY entry.env_key).map EnvConfig.name = some entry.name ∧
      (ENVS_BY_KEY entry.env_key).map (fun e => optTruthy e.front_deploy_script) =
        some entry.has_frontend) ∧
    list_envs.map EnvListEntry.env_key = ENVS.map EnvConfig.key := by
  decide

/-- C9 witness: the listing's first entry (TEST) round-trips through the
registry lookup. -/
theorem c9_witness :
    (envListEntry TEST_env ∈ list_envs) ∧
    ((ENVS_BY_KEY (envListEntry TEST_env).env_key).map EnvConfig.name =
        some (envListEntry TEST_env).name ∧
     (ENVS_BY_KEY (envListEntry TEST_env).env_key).map
        (fun e => optTruthy e.front_deploy_script) =
        some (envListEntry TEST_env).has_frontend) :=
  ⟨by decide, c9_list_lookup_roundtrip.1 (envListEntry TEST_env) (by decide)⟩

/-- C4: the command runner returns the captured stdout+stderr concatenation
on zero exit with no error; on non-zero exit it fails with a 500 error whose
detail is the failure banner plus the command block (argv and working
directory), the exit code, and exactly that command's captured stdout+stderr
concatenation; and a non-zero exit of the first backend command means no
subsequent command of the sequence is invoked (the stage records exactly the
one failed invocation). -/
theorem c4_runner_error_and_stop (w : World) (cmd : List String) (cwd : String) :
    ((w.exec cmd cwd).1 ≠ 0 →
      _run_cmd_capture w cmd cwd =
        (Except.error ⟨500, commandFailedDetail w.ts cmd cwd (w.exec cmd cwd).1
             ((w.exec cmd cwd).2.1 ++ (w.exec cmd cwd).2.2)⟩,
         [{ cmd := cmd, cwd := cwd }])) ∧
    ((w.exec cmd cwd).1 = 0 →
      _run_cmd_capture w cmd cwd =
        (Except.ok ((w.exec cmd cwd).2.1 ++ (w.exec cmd cwd).2.2),
         [{ cmd := cmd, cwd := cwd }])) ∧
    (∀ env br, _assert_git_repo w cwd = Except.ok () →
      (w.exec fetchCmd cwd).1 ≠ 0 →
      (_deploy_backend w env cwd br).2 = [{ cmd := fetchCmd, cwd := cwd }]) := by
  refine ⟨run_cmd_capture_fail w cmd cwd, run_cmd_capture_ok w cmd cwd, ?_⟩
  intro env br hgit hrc
  unfold _deploy_backend
  rw [hgit, run_cmd_capture_fail w fetchCmd cwd hrc]

def wOK : World :=
  { ts := "T"
    isdir := fun _ => true
    isfile := fun _ => true
    exec := fun _ _ => (0, "out", "") }

def wFail : World :=
  { ts := "T"
    isdir := fun _ => true
    isfile := fun _ => true
    exec := fun _ _ => (1, "", "err") }

/-- C4 witness: in a world where every command exits 1 with stderr "err",
the runner fails carrying exit code 1 and output "err", and the backend
stage stops after its first command. -/
theorem c4_witness :
    ((wFail.exec fetchCmd ("/d")).1 ≠ 0) ∧
    _run_cmd_capture wFail fetchCmd ("/d") =
      (Except.error ⟨500, commandFailedDetail ("T") fetchCmd ("/d") 1 ("err")⟩,
       [{ cmd := fetchCmd, cwd := "/d" }]) ∧
    (_deploy_backend wFail TEST_env ("/d") ("main")).2 = [{ cmd := fetchCmd, cwd := "/d" }] := by
  refine ⟨by decide, ?_, ?_⟩
  · exact (c4_runner_error_and_stop wFail fetchCmd ("/d")).1 (by decide)
  · exact (c4_runner_error_and_stop wFail fetchCmd ("/d")).2.2 TEST_env ("main") rfl (by decide)

/-- C6: for an environment without a configured frontend script the frontend
stage's transcript is exactly its stage banner plus the skip marker, with no
subprocess invocation and no filesystem access (the result depends only on
the clock rendering), and the deploy handler still attempts the backend
stage (the request's spy trace is exactly the backend stage's trace). -/
theorem c6_frontend_skip (w : World) (env : EnvConfig) (fd br : String)
    (hscript : optTruthy env.front_deploy_script = false) :
    (_deploy_frontend w env fd br =
      (Except.ok (_banner w.ts ("FRONTEND DEPLOY | " ++ env.name) ++ frontendSkipLine), [])) ∧
    (∀ cwd req, ENVS_BY_KEY req.env_key = some env →
      _is_under_allowed_roots cwd req.work_front_dir = true →
      _is_under_allowed_roots cwd req.work_back_dir = true →
      (deploy w cwd req).2 = (_deploy_backend w env req.work_back_dir req.branch).2) := by
  have hfront : _deploy_frontend w env fd br =
      (Except.ok (_banner w.ts ("FRONTEND DEPLOY | " ++ env.name) ++ frontendSkipLine), []) := by
    unfold _deploy_frontend
    rw [hscript]
    simp
  refine ⟨hfront, ?_⟩
  intro cwd req henv hf hb
  have hfront2 : _deploy_frontend w env req.work_front_dir req.branch =
      (Except.ok (_banner w.ts ("FRONTEND DEPLOY | " ++ env.name) ++ frontendSkipLine), []) := by
    unfold _deploy_frontend
    rw [hscript]
    simp
  unfold deploy
  rw [henv, hf, hb]
  simp only [not_true_eq_false, if_false]
  rw [hfront2]
  rcases hback : _deploy_backend w env req.work_back_dir req.branch with ⟨r, tb⟩
  cases r <;> simp

/-- C6 witness: the DEV environment has no frontend script; its frontend
stage is the banner plus the skip marker with zero invocations. -/
theorem c6_witness :
    (optTruthy DEV_env.front_deploy_script = false) ∧
    _deploy_frontend wOK DEV_env ("/f") ("main") =
      (Except.ok (_banner wOK.ts ("FRONTEND DEPLOY | " ++ DEV_env.name) ++ frontendSkipLine), []) :=
  ⟨by decide, (c6_frontend_skip wOK DEV_env ("/f") ("main") (by decide)).1⟩

/-- C5: with a configured frontend script, after the git-repo assertion on
the frontend directory and the existence assertion on the joined script path
pass, the stage invokes exactly [interpreter, script_path, branch] — bash,
the script joined under the frontend directory, the branch as sole trailing
argument — with working directory the supplied frontend directory, whether
or not the script itself succeeds. -/
theorem c5_frontend_argv (w : World) (env : EnvConfig) (fd br : String)
    (hscript : optTruthy env.front_deploy_script = true)
    (hgit : _assert_git_repo w fd = Except.ok ())
    (hfile : _assert_file_exists w (posixJoin fd (env.front_deploy_script.getD (""))) =
      Except.ok ()) :
    (_deploy_frontend w env fd br).2 =
      [{ cmd := ["bash", posixJoin fd (env.front_deploy_script.getD ("")), br], cwd := fd }] := by
  unfold _deploy_frontend
  rw [hscript, hgit]
  simp only [not_true_eq_false, if_false]
  rw [hfile]
  rcases hr : _run_cmd_capture w ["bash", posixJoin fd (env.front_deploy_script.getD ("")), br] fd
    with ⟨r, t⟩
  have ht : t = [⟨["bash", posixJoin fd (env.front_deploy_script.getD ("")), br], fd⟩] := by
    rw [← run_cmd_capture_trace w ["bash", posixJoin fd (env.front_deploy_script.getD ("")), br] fd,
      hr]
  cases r <;> simp [hr, ht]

/-- C5 witness: for TEST with frontend directory /fe and branch main, the
frontend stage records exactly the bash invocation of /fe/./deploy.sh with
argument main, in working directory /fe. -/
theorem c5_witness :
    (optTruthy TEST_env.front_deploy_script = true) ∧
    (posixJoin ("/fe") (TEST_env.front_deploy_script.getD ("")) = "/fe/./deploy.sh") ∧
    (_deploy_frontend wOK TEST_env ("/fe") ("main")).2 =
      [{ cmd := ["bash", posixJoin ("/fe") (TEST_env.front_deploy_script.getD ("")), "main"],
         cwd := "/fe" }] := by
  refine ⟨by decide, by decide, ?_⟩
  exact c5_frontend_argv wOK TEST_env ("/fe") ("main") (by decide) rfl rfl

/-- C3: the backend stage's recorded command sequence is a prefix of exactly
git fetch origin, git pull origin <branch>, then the shell-tokenized compose
command, all with working directory the supplied backend directory; and when
the git-repo assertion passes and the first two commands exit zero, all
three invocations occur, in that order. -/
theorem c3_backend_commands (w : World) (env : EnvConfig) (bd br : String) :
    (∃ t, (_deploy_backend w env bd br).2 ++ t =
      [⟨fetchCmd, bd⟩, ⟨pullCmd br, bd⟩, ⟨shlex_split env.backend_compose_command, bd⟩]) ∧
    (_assert_git_repo w bd = Except.ok () →
     (w.exec fetchCmd bd).1 = 0 →
     (w.exec (pullCmd br) bd).1 = 0 →
      (_deploy_backend w env bd br).2 =
        [⟨fetchCmd, bd⟩, ⟨pullCmd br, bd⟩, ⟨shlex_split env.backend_compose_command, bd⟩]) := by
  have hlast : ∀ log0 : String,
      (match _run_cmd_capture w (shlex_split env.backend_compose_command) bd with
        | (Except.error e, t3) => (Except.error e, t3)
        | (Except.ok o3, t3) => (Except.ok (log0 ++ o3 ++ "\n[Backend] Done ✅\n"), t3)).2 =
      [⟨shlex_split env.backend_compose_command, bd⟩] := by
    intro log0
    rcases hr : _run_cmd_capture w (shlex_split env.backend_compose_command) bd with ⟨r, t3⟩
    have ht3 : t3 = [⟨shlex_split env.backend_compose_command, bd⟩] := by
      rw [← run_cmd_capture_trace w (shlex_split env.backend_compose_command) bd, hr]
    cases r <;> simp [ht3]
  constructor
  · rcases hga : _assert_git_repo w bd with e | u
    · refine ⟨[⟨fetchCmd, bd⟩, ⟨pullCmd br, bd⟩,
        ⟨shlex_split env.backend_compose_command, bd⟩], ?_⟩
      simp only [_deploy_backend]
      rw [hga]
      simp
    · cases u
      by_cases h1 : (w.exec fetchCmd bd).1 = 0
      · by_cases h2 : (w.exec (pullCmd br) bd).1 = 0
        · refine ⟨[], ?_⟩
          simp only [_deploy_backend]
          rw [hga, run_cmd_capture_ok w fetchCmd bd h1, run_cmd_capture_ok w (pullCmd br) bd h2]
          rcases hr : _run_cmd_capture w (shlex_split env.backend_compose_command) bd with ⟨r, t3⟩
          have ht3 : t3 = [⟨shlex_split env.backend_compose_command, bd⟩] := by
            rw [← run_cmd_capture_trace w (shlex_split env.backend_compose_command) bd, hr]
          cases r <;> simp [ht3]
        · refine ⟨[⟨shlex_split env.backend_compose_command, bd⟩], ?_⟩
          simp only [_deploy_backend]
          rw [hga, run_cmd_capture_ok w fetchCmd bd h1,
            run_cmd_capture_fail w (pullCmd br) bd h2]
          simp
      · refine ⟨[⟨pullCmd br, bd⟩, ⟨shlex_split env.backend_compose_command, bd⟩], ?_⟩
        simp only [_deploy_backend]
        rw [hga, run_cmd_capture_fail w fetchCmd bd h1]
        simp
  · intro hga h1 h2
    simp only [_deploy_backend]
    rw [hga, run_cmd_capture_ok w fetchCmd bd h1, run_cmd_capture_ok w (pullCmd br) bd h2]
    rcases hr : _run_cmd_capture w (shlex_split env.backend_compose_command) bd with ⟨r, t3⟩
    have ht3 : t3 = [⟨shlex_split env.backend_compose_command, bd⟩] := by
      rw [← run_cmd_capture_trace w (shlex_split env.backend_compose_command) bd, hr]
    cases r <;> simp [ht3]

/-- C3 witness: in an all-success world, the backend stage for TEST with
directory /be and branch main records exactly the three commands, and the
compose string tokenizes by shell-style splitting. -/
theorem c3_witness :
    (_assert_git_repo wOK ("/be") = Except.ok ()) ∧
    ((wOK.exec fetchCmd ("/be")).1 = 0) ∧
    ((wOK.exec (pullCmd ("main")) ("/be")).1 = 0) ∧
    (shlex_split TEST_env.backend_compose_command =
      ["docker", "compose", "-p", "elyvium-test", "--env-file", ".env.test", "up",
       "--build", "-d"]) ∧
    (_deploy_backend wOK TEST_env ("/be") ("main")).2 =
      [⟨fetchCmd, "/be"⟩, ⟨pullCmd ("main"), "/be"⟩,
       ⟨shlex_split TEST_env.backend_compose_command, "/be"⟩] := by
  refine ⟨rfl, by decide, by decide, rfl, ?_⟩
  exact (c3_backend_commands wOK TEST_env ("/be") ("main")).2 rfl (by decide) (by decide)

/-- C1: a deploy request whose environment key resolves but whose
work_front_dir or work_back_dir does not normalize to a path under an
allowed root is rejected with a 400 path error whose detail names the
offending path, and the spy records zero subprocess invocations. -/
theorem c1_forbidden_path_rejected (w : World) (cwd : String) (req : DeployRequest)
    (env : EnvConfig) (henv : ENVS_BY_KEY req.env_key = some env)
    (hbad : _is_under_allowed_roots cwd req.work_front_dir = false ∨
            _is_under_allowed_roots cwd req.work_back_dir = false) :
    ∃ p, (p = req.work_front_dir ∨ p = req.work_back_dir) ∧
      _is_under_allowed_roots cwd p = false ∧
      deploy w cwd req = (Except.error ⟨400, pathNotAllowedDetail p⟩, []) := by
  by_cases hf : _is_under_allowed_roots cwd req.work_front_dir = false
  · refine ⟨req.work_front_dir, Or.inl rfl, hf, ?_⟩
    simp only [deploy]
    rw [henv, hf]
    simp
  · have hb : _is_under_allowed_roots cwd req.work_back_dir = false := by
      rcases hbad with h | h
      · exact absurd h hf
      · exact h
    have hf2 : _is_under_allowed_roots cwd req.work_front_dir = true := by
      revert hf
      cases _is_under_allowed_roots cwd req.work_front_dir <;> simp
    refine ⟨req.work_back_dir, Or.inr rfl, hb, ?_⟩
    simp only [deploy]
    rw [henv, hf2, hb]
    simp

/-- C1 witness: a TEST request with front directory /etc/passwd is rejected
with the path error naming /etc/passwd and an empty invocation trace. -/
theorem c1_witness :
    (ENVS_BY_KEY ("TEST") = some TEST_env) ∧
    (_is_under_allowed_roots ("/") ("/etc/passwd") = false) ∧
    ∃ p, (p = "/etc/passwd" ∨ p = "/home/elyvium/projects/ecosystem/be") ∧
      _is_under_allowed_roots ("/") p = false ∧
      deploy wOK ("/") ⟨"TEST", "/etc/passwd", "/home/elyvium/projects/ecosystem/be", "main"⟩ =
        (Except.error ⟨400, pathNotAllowedDetail p⟩, []) := by
  refine ⟨rfl, by decide, ?_⟩
  exact c1_forbidden_path_rejected wOK ("/")
    ⟨"TEST", "/etc/passwd", "/home/elyvium/projects/ecosystem/be", "main"⟩ TEST_env rfl
    (Or.inl (by decide))

/-- C8: precondition failures short-circuit before any command of the
violating stage or any later stage runs: the git-repo assertion fails with
the directory-not-found detail when the directory is missing and with the
not-a-git-repo detail when the .git subdirectory is missing, the script
assertion fails with the file-not-found detail when the path is not a
regular file, and a failing assertion makes the enclosing stage — and the
whole deploy — return that error with no invocation recorded for the stage
(the deploy trace stays empty when a frontend assertion fails, and stays at
exactly the frontend trace when the backend assertion fails). -/
theorem c8_preconditions_short_circuit (w : World) :
    (∀ p, w.isdir p = false →
      _assert_git_repo w p = Except.error ⟨400, "Directory not found: " ++ p⟩) ∧
    (∀ p, w.isdir p = true → w.isdir (posixJoin p (".git")) = false →
      _assert_git_repo w p = Except.error ⟨400, "Not a git repo (.git not found): " ++ p⟩) ∧
    (∀ p, w.isfile p = false →
      _assert_file_exists w p = Except.error ⟨400, "File not found: " ++ p⟩) ∧
    (∀ env fd br e, optTruthy env.front_deploy_script = true →
      _assert_git_repo w fd = Except.error e →
      _deploy_frontend w env fd br = (Except.error e, [])) ∧
    (∀ env fd br e, optTruthy env.front_deploy_script = true →
      _assert_git_repo w fd = Except.ok () →
      _assert_file_exists w (posixJoin fd (env.front_deploy_script.getD (""))) =
        Except.error e →
      _deploy_frontend w env fd br = (Except.error e, [])) ∧
    (∀ env bd br e, _assert_git_repo w bd = Except.error e →
      _deploy_backend w env bd br = (Except.error e, [])) ∧
    (∀ cwd req env e, ENVS_BY_KEY req.env_key = some env →
      _is_under_allowed_roots cwd req.work_front_dir = true →
      _is_under_allowed_roots cwd req.work_back_dir = true →
      _deploy_frontend w env req.work_front_dir req.branch = (Except.error e, []) →
      deploy w cwd req = (Except.error e, [])) ∧
    (∀ cwd req env e flog tf, ENVS_BY_KEY req.env_key = some env →
      _is_under_allowed_roots cwd req.work_front_dir = true →
      _is_under_allowed_roots cwd req.work_back_dir = true →
      _deploy_frontend w env req.work_front_dir req.branch = (Except.ok flog, tf) →
      _deploy_backend w env req.work_back_dir req.branch = (Except.error e, []) →
      deploy w cwd req = (Except.error e, tf)) := by
  refine ⟨?_, ?_, ?_, ?_, ?_, ?_, ?_, ?_⟩
  · intro p h
    simp [_assert_git_repo, h]
  · intro p h1 h2
    simp [_assert_git_repo, h1, h2]
  · intro p h
    simp [_assert_file_exists, h]
  · intro env fd br e hs hg
    simp only [_deploy_frontend]
    rw [hs, hg]
    simp
  · intro env fd br e hs hg hfe
    simp only [_deploy_frontend]
    rw [hs, hg, hfe]
    simp
  · intro env bd br e hg
    simp only [_deploy_backend]
    rw [hg]
  · intro cwd req env e henv hf hb hfr
    simp only [deploy]
    rw [henv, hf, hb]
    simp only [not_true_eq_false, if_false]
    rw [hfr]
  · intro cwd req env e flog tf henv hf hb hfr hbk
    simp only [deploy]
    rw [henv, hf, hb]
    simp only [not_true_eq_false, if_false]
    rw [hfr, hbk]
    simp

def wNoDir : World :=
  { ts := "T"
    isdir := fun _ => false
    isfile := fun _ => false
    exec := fun _ _ => (0, "", "") }

/-- C8 witness: in a world with no directories, the git-repo assertion on
/gone fails with the directory-not-found detail. -/
theorem c8_witness :
    (wNoDir.isdir ("/gone") = false) ∧
    _assert_git_repo wNoDir ("/gone") =
      Except.error ⟨400, "Directory not found: " ++ "/gone"⟩ :=
  ⟨rfl, (c8_preconditions_short_circuit wNoDir).1 ("/gone") rfl⟩

lemma deploy_frontend_ok_shape (w : World) (env : EnvConfig) (fd br : String)
    (flog : String) (tf : List Invocation)
    (h : _deploy_frontend w env fd br = (Except.ok flog, tf)) :
    (∃ s, flog = _banner w.ts ("FRONTEND DEPLOY | " ++ env.name) ++ s) ∧
    (optTruthy env.front_deploy_script = true →
      ∃ s, flog = s ++ "\n[Frontend] Done ✅\n") ∧
    (optTruthy env.front_deploy_script = false →
      flog = _banner w.ts ("FRONTEND DEPLOY | " ++ env.name) ++ frontendSkipLine) := by
  simp only [_deploy_frontend] at h
  by_cases hs : optTruthy env.front_deploy_script = true
  · rw [hs] at h
    simp only [not_true_eq_false, if_false] at h
    rcases hga : _assert_git_repo w fd with e | u
    · rw [hga] at h
      simp at h
    · cases u
      rw [hga] at h
      rcases hfa : _assert_file_exists w (posixJoin fd (env.front_deploy_script.getD ("")))
        with e | u2
      · rw [hfa] at h
        simp at h
      · cases u2
        rw [hfa] at h
        rcases hr : _run_cmd_capture w
            ["bash", posixJoin fd (env.front_deploy_script.getD ("")), br] fd with ⟨r, t⟩
        rw [hr] at h
        cases r with
        | error e => simp at h
        | ok out =>
          simp only [] at h
          have hflog : _banner w.ts ("FRONTEND DEPLOY | " ++ env.name) ++
              "Frontend Directory : " ++ fd ++ "\n" ++
              "Deploy Script      : " ++ posixJoin fd (env.front_deploy_script.getD ("")) ++
              "\n" ++ "Branch             : " ++ br ++ "\n" ++
              _cmd_block ["bash", posixJoin fd (env.front_deploy_script.getD ("")), br] fd ++
              out ++ "\n[Frontend] Done ✅\n" = flog := by
            have h1 := congrArg Prod.fst h
            simpa using h1
          refine ⟨⟨"Frontend Directory : " ++ fd ++ "\n" ++
            "Deploy Script      : " ++ posixJoin fd (env.front_deploy_script.getD ("")) ++
            "\n" ++ "Branch             : " ++ br ++ "\n" ++
            _cmd_block ["bash", posixJoin fd (env.front_deploy_script.getD ("")), br] fd ++
            out ++ "\n[Frontend] Done ✅\n", ?_⟩, fun _ => ⟨_, hflog.symm⟩, fun hc => ?_⟩
          · rw [← hflog]
            simp [String.append_assoc]
          · rw [hs] at hc
            exact absurd hc (by simp)
  · have hs2 : optTruthy env.front_deploy_script = false := by
      revert hs
      cases optTruthy env.front_deploy_script <;> simp
    rw [hs2] at h
    simp only [Bool.false_eq_true, not_false_eq_true, if_true] at h
    have hflog : _banner w.ts ("FRONTEND DEPLOY | " ++ env.name) ++ frontendSkipLine = flog := by
      have h1 := congrArg Prod.fst h
      simpa using h1
    exact ⟨⟨frontendSkipLine, hflog.symm⟩,
      fun hc => absurd hc (by rw [hs2]; simp), fun _ => hflog.symm⟩

lemma deploy_backend_ok_shape (w : World) (env : EnvConfig) (bd br : String)
    (blog : String) (tb : List Invocation)
    (h : _deploy_backend w env bd br = (Except.ok blog, tb)) :
    (∃ s, blog = _banner w.ts ("BACKEND DEPLOY | " ++ env.name) ++ s) ∧
    (∃ s, blog = s ++ "\n[Backend] Done ✅\n") := by
  simp only [_deploy_backend] at h
  rcases hga : _assert_git_repo w bd with e | u
  · rw [hga] at h
    simp at h
  · cases u
    rw [hga] at h
    rcases hr1 : _run_cmd_capture w fetchCmd bd with ⟨r1, t1⟩
    rw [hr1] at h
    cases r1 with
    | error e => simp at h
    | ok o1 =>
      rcases hr2 : _run_cmd_capture w (pullCmd br) bd with ⟨r2, t2⟩
      rw [hr2] at h
      cases r2 with
      | error e => simp at h
      | ok o2 =>
        rcases hr3 : _run_cmd_capture w (shlex_split env.backend_compose_command) bd
          with ⟨r3, t3⟩
        rw [hr3] at h
        cases r3 with
        | error e => simp at h
        | ok o3 =>
          simp only [] at h
          have hblog : _banner w.ts ("BACKEND DEPLOY | " ++ env.name) ++
              "Backend Directory  : " ++ bd ++ "\n" ++
              "Branch             : " ++ br ++ "\n" ++
              "Docker Compose     : " ++ env.backend_compose_command ++ "\n" ++
              _cmd_block fetchCmd bd ++ o1 ++
              _cmd_block (pullCmd br) bd ++ o2 ++
              _cmd_block (shlex_split env.backend_compose_command) bd ++ o3 ++
              "\n[Backend] Done ✅\n" = blog := by
            have h1 := congrArg Prod.fst h
            simpa using h1
          refine ⟨⟨"Backend Directory  : " ++ bd ++ "\n" ++
            "Branch             : " ++ br ++ "\n" ++
            "Docker Compose     : " ++ env.backend_compose_command ++ "\n" ++
            _cmd_block fetchCmd bd ++ o1 ++
            _cmd_block (pullCmd br) bd ++ o2 ++
            _cmd_block (shlex_split env.backend_compose_command) bd ++ o3 ++
            "\n[Backend] Done ✅\n", ?_⟩, ⟨_, hblog.symm⟩⟩
          rw [← hblog]
          simp [String.append_assoc]

/-- C7: when the environment key resolves, both directories pass the path
guard, and both stages return successfully, deploy returns ok=true, the
environment's display name, and an output concatenating — in fixed order —
the request header, the frontend stage transcript, the backend stage
transcript, and the finished banner; each stage transcript starts with its
stage banner, the backend transcript ends with the backend completion
marker, and the frontend transcript ends with the frontend completion
marker when a script is configured (and with the skip marker otherwise). -/
theorem c7_success_response (w : World) (cwd : String) (req : DeployRequest)
    (env : EnvConfig) (flog blog : String) (tf tb : List Invocation)
    (henv : ENVS_BY_KEY req.env_key = some env)
    (hf : _is_under_allowed_roots cwd req.work_front_dir = true)
    (hb : _is_under_allowed_roots cwd req.work_back_dir = true)
    (hfront : _deploy_frontend w env req.work_front_dir req.branch = (Except.ok flog, tf))
    (hback : _deploy_backend w env req.work_back_dir req.branch = (Except.ok blog, tb)) :
    deploy w cwd req =
      (Except.ok { ok := true, env := env.name,
                   output := deployHeader w env req ++ flog ++ blog ++
                     _banner w.ts ("DEPLOY FINISHED ✅ | " ++ env.name) }, tf ++ tb) ∧
    (∃ s, flog = _banner w.ts ("FRONTEND DEPLOY | " ++ env.name) ++ s) ∧
    (∃ s, blog = _banner w.ts ("BACKEND DEPLOY | " ++ env.name) ++ s) ∧
    (∃ s, blog = s ++ "\n[Backend] Done ✅\n") ∧
    (optTruthy env.front_deploy_script = true →
      ∃ s, flog = s ++ "\n[Frontend] Done ✅\n") ∧
    (optTruthy env.front_deploy_script = false →
      flog = _banner w.ts ("FRONTEND DEPLOY | " ++ env.name) ++ frontendSkipLine) := by
  obtain ⟨hf1, hf2, hf3⟩ := deploy_frontend_ok_shape w env req.work_front_dir req.branch
    flog tf hfront
  obtain ⟨hb1, hb2⟩ := deploy_backend_ok_shape w env req.work_back_dir req.branch
    blog tb hback
  refine ⟨?_, hf1, hb1, hb2, hf2, hf3⟩
  simp only [deploy]
  rw [henv, hf, hb]
  simp only [not_true_eq_false, if_false]
  rw [hfront, hback]

def exceptOkStr : Except HTTPException String → String
  | Except.ok s => s
  | Except.error _ => ""

def reqOK : DeployRequest :=
  { env_key := "TEST"
    work_front_dir := "/home/elyvium/projects/ecosystem/fe"
    work_back_dir := "/home/elyvium/projects/ecosystem/be"
    branch := "main" }

/-- C7 witness: in an all-success world, a TEST request with both
directories under the allowed root returns ok with the concatenated
transcript. -/
theorem c7_witness :
    (ENVS_BY_KEY reqOK.env_key = some TEST_env) ∧
    (_is_under_allowed_roots ("/") reqOK.work_front_dir = true) ∧
    (_is_under_allowed_roots ("/") reqOK.work_back_dir = true) ∧
    (deploy wOK ("/") reqOK).1 =
      Except.ok ⟨true, TEST_env.name,
        deployHeader wOK TEST_env reqOK ++
          exceptOkStr (_deploy_frontend wOK TEST_env reqOK.work_front_dir reqOK.branch).1 ++
          exceptOkStr (_deploy_backend wOK TEST_env reqOK.work_back_dir reqOK.branch).1 ++
          _banner wOK.ts ("DEPLOY FINISHED ✅ | " ++ TEST_env.name)⟩ := by
  refine ⟨rfl, by decide, by decide, ?_⟩
  have h := c7_success_response wOK ("/") reqOK TEST_env
    (exceptOkStr (_deploy_frontend wOK TEST_env reqOK.work_front_dir reqOK.branch).1)
    (exceptOkStr (_deploy_backend wOK TEST_env reqOK.work_back_dir reqOK.branch).1)
    ((_deploy_frontend wOK TEST_env reqOK.work_front_dir reqOK.branch).2)
    ((_deploy_backend wOK TEST_env reqOK.work_back_dir reqOK.branch).2)
    rfl (by decide) (by decide) rfl rfl
  rw [h.1]

def wC2 : World :=
  { ts := "T"
    isdir := fun _ => true
    isfile := fun _ => true
    exec := fun cmd _ => if cmd = fetchCmd then (1, "", "boom") else (0, "ZFRONTZ", "") }

def reqC2 : DeployRequest :=
  { env_key := "TEST"
    work_front_dir := "/home/elyvium/projects/ecosystem/fe"
    work_back_dir := "/home/elyvium/projects/ecosystem/be"
    branch := "main" }

def c2FailDetail : String :=
  commandFailedDetail ("T") fetchCmd ("/home/elyvium/projects/ecosystem/be") 1 ("boom")

/-- C2 counterexample: a TEST deploy whose frontend script succeeds with
output ZFRONTZ and whose backend git fetch then fails.  The failure happens
after two invocations, so ZFRONTZ is part of the transcript accumulated up
to the failure, yet the error detail returned to the caller does not
contain it — the detail carries only the failing command's own banner,
block, exit code and output, refuting the claim that the detail contains
the full accumulated transcript. -/
theorem c2_counterexample :
    (deploy wC2 ("/") reqC2).2 =
      [⟨["bash", "/home/elyvium/projects/ecosystem/fe/./deploy.sh", "main"],
        "/home/elyvium/projects/ecosystem/fe"⟩,
       ⟨fetchCmd, "/home/elyvium/projects/ecosystem/be"⟩] ∧
    (wC2.exec ["bash", "/home/elyvium/projects/ecosystem/fe/./deploy.sh", "main"]
      ("/home/elyvium/projects/ecosystem/fe")).2.1 = "ZFRONTZ" ∧
    (deploy wC2 ("/") reqC2).1 = Except.error ⟨500, c2FailDetail⟩ ∧
    ¬ (("ZFRONTZ").data <:+: c2FailDetail.data) := by
  refine ⟨rfl, rfl, rfl, ?_⟩
  intro hinf
  have hz : 'Z' ∈ c2FailDetail.data := hinf.subset (by decide)
  exact absurd hz (by decide)

/-- C2 corrected: the detail text a failed deploy returns to the caller is
exactly the failing step's own error detail — for command failures the
failure banner, the failing command's block, its exit code and that
command's captured output only; the transcript accumulated before the
failure is discarded, because the deploy handler propagates a failing
stage's error unchanged. -/
theorem c2_amended_error_detail (w : World) :
    (∀ cmd cwd, (w.exec cmd cwd).1 ≠ 0 →
      (_run_cmd_capture w cmd cwd).1 = Except.error ⟨500,
        commandFailedDetail w.ts cmd cwd (w.exec cmd cwd).1
          ((w.exec cmd cwd).2.1 ++ (w.exec cmd cwd).2.2)⟩) ∧
    (∀ cwd req env e tf, ENVS_BY_KEY req.env_key = some env →
      _is_under_allowed_roots cwd req.work_front_dir = true →
      _is_under_allowed_roots cwd req.work_back_dir = true →
      _deploy_frontend w env req.work_front_dir req.branch = (Except.error e, tf) →
      (deploy w cwd req).1 = Except.error e) ∧
    (∀ cwd req env e flog tf tb, ENVS_BY_KEY req.env_key = some env →
      _is_under_allowed_roots cwd req.work_front_dir = true →
      _is_under_allowed_roots cwd req.work_back_dir = true →
      _deploy_frontend w env req.work_front_dir req.branch = (Except.ok flog, tf) →
      _deploy_backend w env req.work_back_dir req.branch = (Except.error e, tb) →
      (deploy w cwd req).1 = Except.error e) := by
  refine ⟨fun cmd cwd h => by rw [run_cmd_capture_fail w cmd cwd h], ?_, ?_⟩
  · intro cwd req env e tf henv hf hb hfr
    simp only [deploy]
    rw [henv, hf, hb]
    simp only [not_true_eq_false, if_false]
    rw [hfr]
  · intro cwd req env e flog tf tb henv hf hb hfr hbk
    simp only [deploy]
    rw [henv, hf, hb]
    simp only [not_true_eq_false, if_false]
    rw [hfr, hbk]

/-- C2 amended-claim witness: a concrete failing command's returned detail
is exactly its own formatted failure text. -/
theorem c2_amended_witness :
    ((wFail.exec fetchCmd ("/d")).1 ≠ 0) ∧
    (_run_cmd_capture wFail fetchCmd ("/d")).1 =
      Except.error ⟨500, commandFailedDetail ("T") fetchCmd ("/d") 1 ("err")⟩ :=
  ⟨by decide, (c2_amended_error_detail wFail).1 fetchCmd ("/d") (by decide)⟩

lemma data_mk (l : List Char) : (String.mk l).data = l := rfl

lemma splitOnChar_sep_cons (sep : Char) (l : List Char) :
    splitOnChar sep (sep :: l) = [] :: splitOnChar sep l := by
  simp [splitOnChar]

lemma splitOnChar_no_sep (sep : Char) (l : List Char) (h : sep ∉ l) :
    splitOnChar sep l = [l] := by
  induction l with
  | nil => simp [splitOnChar]
  | cons c rest ih =>
    have hc : ¬ c = sep := fun hcc => h (hcc ▸ List.mem_cons_self c rest)
    have hrest : sep ∉ rest := fun hm => h (List.mem_cons_of_mem c hm)
    simp [splitOnChar, hc, ih hrest]

lemma splitOnChar_word_sep (sep : Char) :
    ∀ word : List Char, sep ∉ word →
      ∀ l, splitOnChar sep (word ++ sep :: l) = word :: splitOnChar sep l := by
  intro word
  induction word with
  | nil =>
    intro _ l
    simp [splitOnChar_sep_cons]
  | cons c wd ih =>
    intro hw l
    have hc : ¬ c = sep := fun hcc => hw (hcc ▸ List.mem_cons_self c wd)
    have hwd : sep ∉ wd := fun hm => hw (List.mem_cons_of_mem c hm)
    simp [splitOnChar, hc, ih hwd l]

lemma isPrefixOfData_append (a b : List Char) : isPrefixOfData a (a ++ b) = true := by
  induction a with
  | nil => rfl
  | cons c cs ih => simp [isPrefixOfData, ih]

lemma is_under_of_isabs (cwd p : String) (h : isabs p = true) :
    _is_under_allowed_roots cwd p =
      isPrefixOfData (("/home/elyvium/projects/ecosystem/").data) (normpathData p.data) := by
  simp [_is_under_allowed_roots, ALLOWED_ROOTS, abspath, h, data_mk]

lemma normpathData_root_child (sd : List Char) (h1 : sd ≠ []) (h2 : ('/') ∉ sd)
    (h3 : sd ≠ ['.']) (h4 : sd ≠ ['.', '.']) :
    normpathData (("/home/elyvium/projects/ecosystem/").data ++ sd) =
      ("/home/elyvium/projects/ecosystem/").data ++ sd := by
  have h0 : ("/home/elyvium/projects/ecosystem/").data ++ sd =
      '/' :: (("home").data ++ '/' :: (("elyvium").data ++ '/' ::
        (("projects").data ++ '/' :: (("ecosystem").data ++ '/' :: sd)))) := rfl
  have hsplit : splitOnChar '/' (("/home/elyvium/projects/ecosystem/").data ++ sd) =
      [[], ("home").data, ("elyvium").data, ("projects").data, ("ecosystem").data, sd] := by
    rw [h0, splitOnChar_sep_cons,
      splitOnChar_word_sep '/' (("home").data) (by decide),
      splitOnChar_word_sep '/' (("elyvium").data) (by decide),
      splitOnChar_word_sep '/' (("projects").data) (by decide),
      splitOnChar_word_sep '/' (("ecosystem").data) (by decide),
      splitOnChar_no_sep '/' sd h2]
  have hfold : (splitOnChar '/' (("/home/elyvium/projects/ecosystem/").data ++ sd)).foldl
      (normStep 1) [] =
      [("home").data, ("elyvium").data, ("projects").data, ("ecosystem").data, sd] := by
    rw [hsplit]
    simp only [List.foldl_cons, List.foldl_nil]
    simp +decide [normStep, h1, h3, h4]
  have hp : List.replicate 1 '/' ++ List.intercalate ['/']
      [("home").data, ("elyvium").data, ("projects").data, ("ecosystem").data, sd] =
      ("/home/elyvium/projects/ecosystem/").data ++ sd := by
    simp only [List.intercalate, List.intersperse, List.flatten, List.replicate]
    simp [List.append_assoc]
  have hne : ("/home/elyvium/projects/ecosystem/").data ++ sd ≠ [] := by
    rw [h0]
    exact List.cons_ne_nil _ _
  have hp1 : isPrefixOfData ['/'] (("/home/elyvium/projects/ecosystem/").data ++ sd) = true := by
    rfl
  have hp2 : isPrefixOfData ['/', '/'] (("/home/elyvium/projects/ecosystem/").data ++ sd) =
      false := by
    rfl
  simp only [normpathData]
  rw [if_neg hne, hp1, hp2]
  simp only [Bool.false_eq_true, false_and, if_false, if_pos]
  rw [hfold, hp, if_neg hne]

/-- C10: the path guard admits only strict descendants of the allowed root:
because the configured root literal ends in a separator and absolute-path
normalization strips trailing separators, the root itself (with or without
trailing slash) is rejected, a sibling whose last component merely extends
the root's name is rejected, and any single-component child of the root is
admitted — all independently of the process working directory. -/
theorem c10_guard_strict_descendants :
    (∀ cwd, _is_under_allowed_roots cwd ("/home/elyvium/projects/ecosystem") = false) ∧
    (∀ cwd, _is_under_allowed_roots cwd ("/home/elyvium/projects/ecosystem/") = false) ∧
    (∀ cwd, _is_under_allowed_roots cwd ("/home/elyvium/projects/ecosystem-evil") = false) ∧
    (∀ cwd s, s.data ≠ [] → ('/') ∉ s.data → s.data ≠ ['.'] → s.data ≠ ['.', '.'] →
      _is_under_allowed_roots cwd ("/home/elyvium/projects/ecosystem/" ++ s) = true) := by
  refine ⟨?_, ?_, ?_, ?_⟩
  · intro cwd
    rw [is_under_of_isabs cwd ("/home/elyvium/projects/ecosystem") (by decide)]
    decide
  · intro cwd
    rw [is_under_of_isabs cwd ("/home/elyvium/projects/ecosystem/") (by decide)]
    decide
  · intro cwd
    rw [is_under_of_isabs cwd ("/home/elyvium/projects/ecosystem-evil") (by decide)]
    decide
  · intro cwd s h1 h2 h3 h4
    have hdata : ("/home/elyvium/projects/ecosystem/" ++ s).data =
        ("/home/elyvium/projects/ecosystem/").data ++ s.data := String.data_append _ _
    have habs : isabs ("/home/elyvium/projects/ecosystem/" ++ s) = true := by
      simp only [isabs, hdata]
      rfl
    rw [is_under_of_isabs cwd _ habs, hdata,
      normpathData_root_child s.data h1 h2 h3 h4]
    exact isPrefixOfData_append _ _

/-- C10 witness: the child path app of the allowed root is admitted, while
the root itself is rejected. -/
theorem c10_witness :
    ((("app").data ≠ [] ∧ ('/') ∉ ("app").data ∧ ("app").data ≠ ['.'] ∧
      ("app").data ≠ ['.', '.'])) ∧
    _is_under_allowed_roots ("/") ("/home/elyvium/projects/ecosystem/" ++ "app") = true ∧
    _is_under_allowed_roots ("/") ("/home/elyvium/projects/ecosystem") = false :=
  ⟨⟨by decide, by decide, by decide, by decide⟩,
    c10_guard_strict_descendants.2.2.2 ("/") ("app")
      (by decide) (by decide) (by decide) (by decide),
    c10_guard_strict_descendants.1 ("/")⟩
